import Mathlib

set_option autoImplicit false

namespace PdfTgTranslator

/-! Shallow embedding of the text-selection-to-translation pipeline of the
pdf-tg-translator frontend: the selection handler of PdfViewer.jsx, the
useTranslation hook, and the dismissal and positioning logic of
TranslationPopup.jsx.  JavaScript strings are modelled as Lean strings, and
as plain character lists where character-level algorithms (trim, whitespace
split) are involved; JavaScript numbers as integers or rationals; absent or
undefined JSON fields as Option values. -/

/-- Whitespace test for one character (the character class of the JavaScript
whitespace regex), modelled by Char.isWhitespace. -/
def isWs (c : Char) : Bool := c.isWhitespace

/-- Strip leading and trailing whitespace from a character list, as the
JavaScript string trim method does. -/
def trimChars (l : List Char) : List Char :=
  ((l.dropWhile isWs).reverse.dropWhile isWs).reverse

/-- The JavaScript string trim method, on Lean strings. -/
def jsTrim (s : String) : String := String.mk (trimChars s.data)

/-- Accumulator-based whitespace tokenizer: splits a character list into its
maximal runs of non-whitespace characters, which is what the JavaScript split
on a whitespace-run regex returns for a trimmed string.  The accumulator holds
the current token, reversed. -/
def tokAux : List Char → List Char → List (List Char)
  | [], acc => if acc.isEmpty then [] else [acc.reverse]
  | c :: cs, acc =>
    if isWs c then
      if acc.isEmpty then tokAux cs [] else acc.reverse :: tokAux cs []
    else
      tokAux cs (c :: acc)

/-- The whitespace-separated tokens of a character list. -/
def tokenize (l : List Char) : List (List Char) := tokAux l []

/-- The JavaScript array join with a single-space separator, on token lists. -/
def joinWith : List (List Char) → List Char
  | [] => []
  | [t] => t
  | t :: t2 :: ts => t ++ ' ' :: joinWith (t2 :: ts)

/-- The stabilized-selection handler of PdfViewer (the body of its debounce
timer): trim the selection; if the trimmed text is non-empty, split it on
whitespace, keep at most the first 10 tokens and rejoin them with single
spaces, emitting that phrase; otherwise emit nothing (the popup is hidden). -/
def handleTextSelection (selection : List Char) : Option (List Char) :=
  if (trimChars selection).isEmpty then none
  else some (joinWith ((tokenize (trimChars selection)).take 10))

/-- The auxiliary flashcard (Anki) status stored by the hook, mirroring the
two object shapes passed to setAnkiStatus. -/
structure AnkiStatus where
  success : Bool
  noteId : Option Nat := none
  errMsg : Option String := none
deriving DecidableEq

/-- The four state variables of useTranslation.  The translation field is an
Option: none models the JavaScript undefined value (setTranslation applied to
a missing response field), some of the empty string the initial state. -/
structure HookState where
  translation : Option String
  isLoading : Bool
  error : Option String
  ankiStatus : Option AnkiStatus
deriving DecidableEq

/-- The initial hook state: empty translation, not loading, no error, no anki
status. -/
def HookState.initial : HookState :=
  { translation := some "", isLoading := false, error := none,
    ankiStatus := none }

/-- The parsed JSON body of a processTranslation response.  Every field is an
Option because the hook reads them from untyped JSON, where any of them may be
absent. -/
structure ResponseData where
  translation : Option String := none
  ankiStatus : Option String := none
  ankiNoteId : Option Nat := none
  ankiError : Option String := none
deriving DecidableEq

/-- The single eventual resolution of the fetch inside translate: an ok
response with a parsed body, a non-ok HTTP response (carrying the optional
message of its error body, plus status and status text), or a rejected fetch
(network failure). -/
inductive FetchOutcome where
  | ok (data : ResponseData)
  | httpError (status : Nat) (statusText : String) (message : Option String)
  | networkError (msg : String)
deriving DecidableEq

/-- The JavaScript string includes method. -/
def jsIncludes (s sub : String) : Bool :=
  s.data.tails.any (fun t => sub.data.isPrefixOf t)

/-- The catch block of translate: transport-flavoured messages (containing
fetch or network) map to the fixed cannot-connect text, any other non-empty
message is surfaced as is, and an empty message falls back to the generic
failure text. -/
def formatCaughtError (msg : String) : String :=
  if msg == "" then "Translation failed"
  else if jsIncludes msg "fetch" || jsIncludes msg "network" then
    "Cannot connect to translation service"
  else msg

/-- The synchronous prefix of translate: the empty-text guard returns without
dispatching and without touching any state; otherwise loading is set and the
previous error and anki status are cleared, and the fetch is dispatched.  The
returned Bool records whether a network call was dispatched. -/
def translateStart (text : String) (s : HookState) : HookState × Bool :=
  if text == "" || jsTrim text == "" then (s, false)
  else ({ s with isLoading := true, error := none, ankiStatus := none }, true)

/-- The continuation of translate once its fetch resolves, transcribed from
its try, catch and finally blocks: an ok response stores the (possibly
absent) translation field unconditionally and derives the anki status from
the body; a non-ok response or a rejected fetch throws, and the catch block
formats and stores the error message; finally clears the loading flag.
Nothing here compares the phrase the request was built for against the
currently bound phrase. -/
def translateResolve (o : FetchOutcome) (s : HookState) : HookState :=
  match o with
  | .ok data =>
    let s1 := { s with translation := data.translation }
    let s2 :=
      if data.ankiStatus == some "added" then
        { s1 with ankiStatus := some ⟨true, data.ankiNoteId, none⟩ }
      else
        match data.ankiError with
        | some e => { s1 with ankiStatus := some ⟨false, none, some e⟩ }
        | none => s1
    { s2 with isLoading := false }
  | .httpError status statusText message =>
    let raised :=
      match message with
      | some m =>
        if m == "" then "HTTP " ++ toString status ++ ": " ++ statusText
        else m
      | none => "HTTP " ++ toString status ++ ": " ++ statusText
    { s with error := some (formatCaughtError raised), isLoading := false }
  | .networkError m =>
    { s with error := some (formatCaughtError m), isLoading := false }

/-- The reset callback of the hook: a pure, synchronous state transform that
clears the translation, the error, the loading flag and the anki status. -/
def resetState (_s : HookState) : HookState :=
  { translation := some "", isLoading := false, error := none,
    ankiStatus := none }

/-- The text-change effect of the hook: whenever the bound text changes, the
translation, error and anki status are cleared (the loading flag is not
touched by this effect). -/
def textChangeReset (s : HookState) : HookState :=
  { s with translation := some "", error := none, ankiStatus := none }

/-- One mounted popup-plus-hook instance: the currently bound phrase, the hook
state, the in-flight requests (tagged, for bookkeeping only, with the phrase
each was built for) and a fresh-id counter. -/
structure CompState where
  text : String
  hook : HookState
  pending : List (Nat × String)
  nextId : Nat
deriving DecidableEq

/-- The freshly mounted instance: empty phrase, initial hook state, nothing in
flight. -/
def CompState.initial : CompState :=
  { text := "", hook := HookState.initial, pending := [], nextId := 0 }

/-- Environment events delivered to a mounted instance: the bound phrase
changes (running the text-change reset effect and then the auto-translate
effect, in their declaration order, with the hook enabled), or one in-flight
request resolves, running the translate continuation. -/
inductive Event where
  | changeText (t : String)
  | resolve (id : Nat) (o : FetchOutcome)

/-- One step of the instance.  On a phrase change the state is reset and, for
a truthy phrase passing the empty-text guard, a new tagged request is
dispatched.  On a resolution of an in-flight request the continuation is
applied to the current hook state unconditionally, exactly as in the source,
where the closed-over state setters run with no staleness check. -/
def step (s : CompState) (e : Event) : CompState :=
  match e with
  | .changeText t =>
    let hook1 := textChangeReset s.hook
    if t == "" then { s with text := t, hook := hook1 }
    else
      let started := translateStart t hook1
      if started.2 then
        { text := t, hook := started.1,
          pending := s.pending ++ [(s.nextId, t)], nextId := s.nextId + 1 }
      else { s with text := t, hook := started.1 }
  | .resolve id o =>
    if s.pending.any (fun p => p.1 == id) then
      { s with
          hook := translateResolve o s.hook,
          pending := s.pending.filter (fun p => p.1 != id) }
    else s

/-- Run a sequence of events from the freshly mounted instance. -/
def run (es : List Event) : CompState := es.foldl step CompState.initial

/-- The mousedown handler of TranslationPopup, as the decision whether the
close callback is invoked for one event: the popup node must be attached, the
event target must lie outside it, and a live selection must exist whose text
trims to the empty string. -/
def handleClickOutside (popupAttached insideTarget : Bool)
    (selection : Option (List Char)) : Bool :=
  if popupAttached && !insideTarget then
    match selection with
    | some s => (trimChars s).isEmpty
    | none => false
  else false

/-- A screen position (anchor point), in CSS pixels. -/
structure Position where
  x : ℚ
  y : ℚ
deriving DecidableEq

/-- A bounding client rectangle. -/
structure Rect where
  left : ℚ
  right : ℚ
  top : ℚ
  bottom : ℚ
  width : ℚ
  height : ℚ
deriving DecidableEq

/-- The realized bounding box of the popup rendered at anchor p with style
left p.x, top p.y and the translate(-50%, -100%) transform: horizontally
centred on the anchor and bottom-aligned to it. -/
def popupRect (p : Position) (width height : ℚ) : Rect :=
  { left := p.x - width / 2, right := p.x + width / 2,
    top := p.y - height, bottom := p.y, width := width, height := height }

/-- The position-adjust effect of TranslationPopup, transcribed branch by
branch: shift the horizontal anchor when the realized box overflows the right
edge or underflows the left edge of the viewport (10 px margin), and flip the
vertical anchor below the selection when the box underflows the top, unless
the box also overflows the bottom. -/
def adjustPosition (viewportWidth viewportHeight : ℚ) (position : Position)
    (rect : Rect) : Position :=
  let newX0 := position.x
  let newY0 := position.y
  let newX1 :=
    if rect.right > viewportWidth - 10 then viewportWidth - rect.width / 2 - 10
    else newX0
  let newX2 := if rect.left < 10 then rect.width / 2 + 10 else newX1
  let newY1 := if rect.top < 10 then position.y + 60 else newY0
  let newY2 := if rect.bottom > viewportHeight - 10 then position.y else newY1
  { x := newX2, y := newY2 }

/-- The JSON body sent to the processTranslation endpoint: a single field
holding the trimmed bound text (this structure has exactly one field). -/
structure ProcessTranslationBody where
  text : String
deriving DecidableEq

/-- Construction of the dispatched body inside translate. -/
def buildRequestBody (text : String) : ProcessTranslationBody :=
  { text := jsTrim text }

/-- The options object as the popup presenter passes it to the hook. -/
structure TranslationOptions where
  sourceLang : Option String := none
  targetLang : Option String := none
  enabled : Bool := true
deriving DecidableEq

/-- What the hook destructures from its options argument: only the enabled
flag; the language fields are never read. -/
def hookAccepted (opts : TranslationOptions) : Bool := opts.enabled

/-- The body dispatched by the auto-translate effect for a bound text and an
options object: present exactly when the hook is enabled, the text is truthy
and the empty-text guard of translate passes. -/
def autoDispatch (text : String) (opts : TranslationOptions) :
    Option ProcessTranslationBody :=
  if hookAccepted opts && text != "" then
    if text == "" || jsTrim text == "" then none
    else some (buildRequestBody text)
  else none

/-- The options object built at the useTranslation call site inside
TranslationPopup: source language en, target language ru, enabled bound to
the show prop. -/
def popupOptions (shown : Bool) : TranslationOptions :=
  { sourceLang := some "en", targetLang := some "ru", enabled := shown }

/-- The page clamp of onDocumentLoadSuccess: keep the previously saved page
but force it into the bounds of the freshly loaded document. -/
def onLoadClampPage (prevPage : ℤ) (numPages : ℤ) : ℤ :=
  min (max prevPage 1) numPages

/-- The previous-page control of PdfViewer. -/
def goToPrevPage (page : ℤ) : ℤ := max (page - 1) 1

/-- The or-one fallback applied to the page count in goToNextPage: the page
count is none before any document has loaded, and the source falls back to 1
through the or-operator, which also treats a zero page count as absent. -/
def pageCountOrOne (numPages : Option ℤ) : ℤ :=
  match numPages with
  | some n => if n == 0 then 1 else n
  | none => 1

/-- The next-page control of PdfViewer. -/
def goToNextPage (page : ℤ) (numPages : Option ℤ) : ℤ :=
  min (page + 1) (pageCountOrOne numPages)

/-- The zoom-in control of PdfViewer: step a fifth up, capped at 3. -/
def zoomIn (scale : ℚ) : ℚ := min (scale + 1 / 5) 3

/-- The zoom-out control of PdfViewer: step a fifth down, floored at a
half. -/
def zoomOut (scale : ℚ) : ℚ := max (scale - 1 / 5) (1 / 2)

/-- The reset-zoom control of PdfViewer. -/
def resetZoom (_scale : ℚ) : ℚ := 1

/-- A trace exercising the staleness race: the phrase becomes hello (its
request, id 0, is dispatched), the phrase then changes to world while request
0 is still in flight (request 1 is dispatched), and finally request 0
resolves with a translation. -/
def staleTrace : List Event :=
  [Event.changeText "hello", Event.changeText "world",
   Event.resolve 0 (FetchOutcome.ok { translation := some "привет" })]

/-- A concrete response carrying both a translation and an anki error. -/
def ankiErrorResponse : ResponseData :=
  { translation := some "привет", ankiError := some "deck not found" }

/-- A concrete stabilized selection of twelve whitespace-separated words,
with stray surrounding whitespace. -/
def twelveWords : List Char :=
  " the quick brown fox jumps over the lazy dog near old barns ".data

/-- C1: the code violates the staleness requirement.  After the bound phrase
has changed from hello to world, the resolution of the request built for
hello is still applied: the hook stores the stale translation in the state
now associated with world (whose own request, id 1, is still in flight).
Nothing in the source compares the originating phrase of a resolution with
the currently bound phrase, so the stale result is stored, not discarded. -/
theorem stale_resolution_is_applied :
    (run (staleTrace.take 1)).pending = [(0, "hello")] ∧
    (run staleTrace).text = "world" ∧
    (run staleTrace).hook.translation = some "привет" ∧
    (run staleTrace).pending = [(1, "world")] := by
  refine ⟨rfl, rfl, rfl, rfl⟩

/-- C2 counterexample: calling translate with the empty text from the idle
state dispatches no network call, but also performs no transition at all: the
state is returned unchanged, and in particular its error slot is still none —
there is no Failed state and no validation-error message, contrary to the
claim. -/
theorem empty_text_counterexample :
    (translateStart "" HookState.initial).2 = false ∧
      (translateStart "" HookState.initial).1.error = none ∧
      (translateStart "" HookState.initial).1 = HookState.initial := by
  refine ⟨rfl, rfl, rfl⟩

/-- C2 amended: for every text that is empty or whitespace-only after
trimming, translate dispatches no network call and returns with the state
machine unchanged (no Failed transition and no error message is recorded). -/
theorem empty_text_never_dispatched (text : String) (s : HookState)
    (h : jsTrim text = "") :
    translateStart text s = (s, false) := by
  unfold translateStart
  have hb : (jsTrim text == "") = true := beq_iff_eq.mpr h
  simp [hb]

/-- C2 witness: the whitespace-only text consisting of three spaces trims to
the empty string and is neither dispatched nor moved out of the current
state. -/
theorem empty_text_never_dispatched_witness :
    jsTrim "   " = "" ∧
      translateStart "   " HookState.initial = (HookState.initial, false) :=
  ⟨by decide, empty_text_never_dispatched "   " HookState.initial (by decide)⟩

/-- C3: the code evaluated at the failing input.  A success response whose
body lacks the translation field leaves the hook with no error at all: the
state machine does not transition to Failed; the translation is merely set to
the undefined value.  This contradicts the documented design, under which
responses pass schema validation and a translation field is guaranteed, with
shape failures surfacing as errors. -/
theorem missing_translation_field_not_failed :
    translateResolve (FetchOutcome.ok {})
        (translateStart "hello" HookState.initial).1 =
      { translation := none, isLoading := false, error := none,
        ankiStatus := none } := by
  rfl

/-- C5: a success response carrying both a translation and an anki error
(and, per the response contract, not the added success marker) puts the hook
in the succeeded state with that translation and simultaneously records the
side-effect-failure status; the error slot is left exactly as it was, so a
side-effect failure never downgrades the succeeded translation to Failed. -/
theorem anki_error_keeps_success (data : ResponseData) (s : HookState)
    (t e : String) (ht : data.translation = some t)
    (he : data.ankiError = some e) (hs : data.ankiStatus ≠ some "added") :
    (translateResolve (FetchOutcome.ok data) s).translation = some t ∧
    (translateResolve (FetchOutcome.ok data) s).ankiStatus =
      some ⟨false, none, some e⟩ ∧
    (translateResolve (FetchOutcome.ok data) s).error = s.error := by
  have hb : (data.ankiStatus == some "added") = false :=
    beq_eq_false_iff_ne.mpr hs
  simp [translateResolve, hb, he, ht]

/-- C5 witness: the response carrying translation privet and anki error deck
not found yields the succeeded translation together with the failure badge,
with the error slot untouched. -/
theorem anki_error_keeps_success_witness :
    (translateResolve (FetchOutcome.ok ankiErrorResponse)
        (translateStart "hello" HookState.initial).1).translation =
      some "привет" ∧
    (translateResolve (FetchOutcome.ok ankiErrorResponse)
        (translateStart "hello" HookState.initial).1).ankiStatus =
      some ⟨false, none, some "deck not found"⟩ ∧
    (translateResolve (FetchOutcome.ok ankiErrorResponse)
        (translateStart "hello" HookState.initial).1).error =
      (translateStart "hello" HookState.initial).1.error :=
  anki_error_keeps_success _ _ "привет" "deck not found" rfl rfl (by decide)

/-- C6: for a mousedown landing outside the attached popup, the close
callback fires exactly when the live selection trims to the empty string: an
outside pointer-down with a non-empty live selection leaves the popup
visible, and the same event with an empty selection hides it. -/
theorem click_outside_dismissal (sel : List Char) :
    handleClickOutside true false (some sel) = true ↔ trimChars sel = [] := by
  simp [handleClickOutside, List.isEmpty_iff]

/-- C7: with a viewport of width 400, an anchor at x 395 and a popup of width
200 horizontally centred on the anchor, the overflow adjustment moves the
anchor so that the popup right edge (adjusted x plus half the width) is at
most 390, the viewport width minus the 10 px margin — for every anchor
height, viewport height and popup height. -/
theorem overflow_adjustment_bound (y vh h : ℚ) :
    (adjustPosition 400 vh ⟨395, y⟩ (popupRect ⟨395, y⟩ 200 h)).x + 200 / 2 ≤
      390 := by
  simp only [adjustPosition, popupRect]
  norm_num

/-- C8: calling reset twice leaves the state machine exactly where one call
does: the idle state with the translation cleared, no error, loading off and
no anki status; reset is a pure state transform, so it completes
synchronously. -/
theorem reset_idempotent (s : HookState) :
    resetState (resetState s) = resetState s ∧
      resetState s =
        { translation := some "", isLoading := false, error := none,
          ankiStatus := none } :=
  ⟨rfl, rfl⟩

/-- C9: the dispatched request body is the one-field object holding exactly
the trimmed bound text, and the hook ignores the sourceLang and targetLang
options the popup passes: any two options objects agreeing on enabled lead to
identical dispatch behaviour. -/
theorem body_only_trimmed_text (text : String) (o1 o2 : TranslationOptions)
    (h : o1.enabled = o2.enabled) :
    autoDispatch text o1 = autoDispatch text o2 ∧
      ∀ b, autoDispatch text o1 = some b → b = { text := jsTrim text } := by
  constructor
  · unfold autoDispatch hookAccepted
    rw [h]
  · intro b hb
    unfold autoDispatch at hb
    split at hb
    · split at hb
      · cases hb
      · injection hb with hb
        rw [← hb]
        rfl
    · cases hb

/-- C9 witness: the options the popup passes (en, ru, enabled) and a bare
enabled-only options object dispatch identically, and the body dispatched for
a padded hello is exactly the trimmed hello. -/
theorem body_only_trimmed_text_witness :
    autoDispatch " hello " (popupOptions true) =
      autoDispatch " hello " { enabled := true } ∧
    autoDispatch " hello " (popupOptions true) = some { text := "hello" } :=
  ⟨(body_only_trimmed_text " hello " (popupOptions true) { enabled := true }
      rfl).1,
   by decide⟩

/-- C10: the bounds invariants of the viewer: a document load success clamps
the page into the interval from 1 to the page count; the previous-page and
next-page controls keep a page in that interval inside it; and the three zoom
controls keep the scale between one half and 3. -/
theorem viewer_bounds :
    (∀ p n : ℤ, 1 ≤ n →
      1 ≤ onLoadClampPage p n ∧ onLoadClampPage p n ≤ n) ∧
    (∀ p n : ℤ, 1 ≤ p → p ≤ n →
      1 ≤ goToPrevPage p ∧ goToPrevPage p ≤ n ∧
      1 ≤ goToNextPage p (some n) ∧ goToNextPage p (some n) ≤ n) ∧
    (∀ s : ℚ, 1 / 2 ≤ s → s ≤ 3 →
      1 / 2 ≤ zoomIn s ∧ zoomIn s ≤ 3 ∧
      1 / 2 ≤ zoomOut s ∧ zoomOut s ≤ 3 ∧
      1 / 2 ≤ resetZoom s ∧ resetZoom s ≤ 3) := by
  refine ⟨?_, ?_, ?_⟩
  · intro p n hn
    unfold onLoadClampPage
    exact ⟨le_min (le_max_right p 1) hn, min_le_right _ _⟩
  · intro p n hp hpn
    have h0 : n ≠ 0 := by omega
    have hb : (n == 0) = false := beq_eq_false_iff_ne.mpr h0
    unfold goToPrevPage goToNextPage
    simp only [pageCountOrOne, hb, Bool.false_eq_true, if_false]
    refine ⟨le_max_right _ _, max_le (by omega) (by omega),
      le_min (by omega) (by omega), min_le_right _ _⟩
  · intro s hlo hhi
    unfold zoomIn zoomOut resetZoom
    refine ⟨le_min (by linarith) (by norm_num), min_le_right _ _,
      le_max_right _ _, max_le (by linarith) (by norm_num),
      by norm_num, by norm_num⟩

/-- The tokenizer absorbs a purely non-whitespace prefix into its
accumulator. -/
theorem tokAux_nonws_absorb (t : List Char) (ht : ∀ c ∈ t, isWs c = false) :
    ∀ l acc : List Char, tokAux (t ++ l) acc = tokAux l (t.reverse ++ acc) := by
  induction t with
  | nil => intro l acc; rfl
  | cons c t ih =>
    intro l acc
    have hc : isWs c = false := ht c (List.mem_cons_self c t)
    have ht2 : ∀ x ∈ t, isWs x = false :=
      fun x hx => ht x (List.mem_cons_of_mem c hx)
    simp only [List.cons_append, tokAux, hc, Bool.false_eq_true, if_false,
      List.append_eq]
    rw [ih ht2 l (c :: acc)]
    simp [List.append_assoc]

/-- The tokenizer yields nothing from a purely whitespace list started with
an empty accumulator. -/
theorem tokAux_allws_nil (w : List Char) (hw : ∀ c ∈ w, isWs c = true) :
    tokAux w [] = [] := by
  induction w with
  | nil => rfl
  | cons c w ih =>
    have hc : isWs c = true := hw c (List.mem_cons_self c w)
    simp only [tokAux, hc, if_true, List.isEmpty_nil]
    exact ih fun x hx => hw x (List.mem_cons_of_mem c hx)

/-- On a purely whitespace list the tokenizer only flushes its accumulator,
exactly as on the empty list. -/
theorem tokAux_allws (w : List Char) (hw : ∀ c ∈ w, isWs c = true)
    (acc : List Char) : tokAux w acc = tokAux [] acc := by
  cases w with
  | nil => rfl
  | cons c w =>
    have hc : isWs c = true := hw c (List.mem_cons_self c w)
    have hw2 : ∀ x ∈ w, isWs x = true :=
      fun x hx => hw x (List.mem_cons_of_mem c hx)
    simp only [tokAux, hc, if_true, tokAux_allws_nil w hw2]

/-- Appending trailing whitespace does not change tokenization. -/
theorem tokAux_append_ws (w : List Char) (hw : ∀ c ∈ w, isWs c = true) :
    ∀ l acc : List Char, tokAux (l ++ w) acc = tokAux l acc := by
  intro l
  induction l with
  | nil =>
    intro acc
    simp only [List.nil_append]
    exact tokAux_allws w hw acc
  | cons c l ih =>
    intro acc
    simp only [List.cons_append, tokAux]
    cases hc : isWs c with
    | true => simp only [hc, if_true, List.append_eq, ih]
    | false => simp only [hc, Bool.false_eq_true, if_false, List.append_eq, ih]

/-- Dropping leading whitespace does not change tokenization. -/
theorem tokenize_dropWhile (l : List Char) :
    tokenize (l.dropWhile isWs) = tokenize l := by
  induction l with
  | nil => rfl
  | cons c l ih =>
    cases hc : isWs c with
    | true =>
      rw [List.dropWhile_cons_of_pos hc, ih]
      simp only [tokenize, tokAux, hc, if_true, List.isEmpty_nil]
    | false =>
      rw [List.dropWhile_cons_of_neg (by simp [hc])]

/-- Trimming does not change tokenization. -/
theorem tokenize_trimChars (l : List Char) :
    tokenize (trimChars l) = tokenize l := by
  unfold trimChars
  have hsplit :
      ((l.dropWhile isWs).reverse.dropWhile isWs).reverse ++
        ((l.dropWhile isWs).reverse.takeWhile isWs).reverse =
        l.dropWhile isWs := by
    rw [← List.reverse_append, List.takeWhile_append_dropWhile,
      List.reverse_reverse]
  have hws :
      ∀ c ∈ ((l.dropWhile isWs).reverse.takeWhile isWs).reverse,
        isWs c = true := by
    intro c hcmem
    exact List.mem_takeWhile_imp (List.mem_reverse.mp hcmem)
  have happ := tokAux_append_ws _ hws
    ((l.dropWhile isWs).reverse.dropWhile isWs).reverse []
  rw [hsplit] at happ
  calc tokenize ((l.dropWhile isWs).reverse.dropWhile isWs).reverse
      = tokenize (l.dropWhile isWs) := happ.symm
    _ = tokenize l := tokenize_dropWhile l

/-- Every token the tokenizer produces from a whitespace-free accumulator is
non-empty and whitespace-free. -/
theorem tokAux_sound (l : List Char) :
    ∀ acc : List Char, (∀ c ∈ acc, isWs c = false) →
      ∀ t ∈ tokAux l acc, t ≠ [] ∧ ∀ c ∈ t, isWs c = false := by
  induction l with
  | nil =>
    intro acc hacc t ht
    simp only [tokAux] at ht
    split at ht
    · exact absurd ht (List.not_mem_nil t)
    · rename_i ha
      rw [List.mem_singleton] at ht
      subst ht
      refine ⟨fun hnil => ?_, fun c hcmem => hacc c (List.mem_reverse.mp hcmem)⟩
      rw [List.reverse_eq_nil_iff] at hnil
      rw [hnil] at ha
      exact ha rfl
  | cons c l ih =>
    intro acc hacc t ht
    simp only [tokAux] at ht
    split at ht
    · rename_i hc
      split at ht
      · exact ih [] (fun x hx => absurd hx (List.not_mem_nil x)) t ht
      · rename_i ha
        rw [List.mem_cons] at ht
        cases ht with
        | inl heq =>
          subst heq
          refine ⟨fun hnil => ?_,
            fun x hxmem => hacc x (List.mem_reverse.mp hxmem)⟩
          rw [List.reverse_eq_nil_iff] at hnil
          rw [hnil] at ha
          exact ha rfl
        | inr hmem =>
          exact ih [] (fun x hx => absurd hx (List.not_mem_nil x)) t hmem
    · rename_i hc
      refine ih (c :: acc) ?_ t ht
      intro x hx
      rw [List.mem_cons] at hx
      cases hx with
      | inl hxc =>
        subst hxc
        exact Bool.not_eq_true _ ▸ Bool.of_not_eq_true hc
      | inr hxa => exact hacc x hxa

/-- Tokenizing the single-space join of non-empty whitespace-free tokens
recovers exactly those tokens. -/
theorem tokenize_joinWith (ts : List (List Char))
    (h : ∀ t ∈ ts, t ≠ [] ∧ ∀ c ∈ t, isWs c = false) :
    tokenize (joinWith ts) = ts := by
  induction ts with
  | nil => rfl
  | cons t ts ih =>
    obtain ⟨hne, hws⟩ := h t (List.mem_cons_self t ts)
    have hrevne : t.reverse.isEmpty = false := by
      rw [List.isEmpty_eq_false]
      simp only [ne_eq, List.reverse_eq_nil_iff]
      exact hne
    cases ts with
    | nil =>
      show tokAux (joinWith [t]) [] = [t]
      rw [joinWith]
      have habs := tokAux_nonws_absorb t hws [] []
      rw [List.append_nil] at habs
      rw [habs]
      simp only [List.append_nil, tokAux, hrevne, Bool.false_eq_true, if_false,
        List.reverse_reverse]
    | cons t2 ts2 =>
      have h2 : ∀ x ∈ t2 :: ts2, x ≠ [] ∧ ∀ c ∈ x, isWs c = false :=
        fun x hx => h x (List.mem_cons_of_mem t hx)
      show tokAux (t ++ ' ' :: joinWith (t2 :: ts2)) [] = t :: t2 :: ts2
      rw [tokAux_nonws_absorb t hws]
      have hsp : isWs ' ' = true := by decide
      simp only [List.append_nil, tokAux, hsp, if_true, hrevne,
        Bool.false_eq_true, if_false, List.reverse_reverse]
      exact congrArg (t :: ·) (ih h2)

/-- C4: the emitted phrase of a stabilized non-empty selection is the first
10 whitespace-separated tokens rejoined with single spaces; when the
selection has more than 10 tokens, the emitted phrase consists of exactly the
first 10 tokens, and with 10 or fewer tokens every token is kept. -/
theorem selection_word_limit (selection : List Char)
    (h : trimChars selection ≠ []) :
    handleTextSelection selection =
      some (joinWith ((tokenize selection).take 10)) ∧
    (10 < (tokenize selection).length →
      tokenize (joinWith ((tokenize selection).take 10)) =
        (tokenize selection).take 10) ∧
    ((tokenize selection).length ≤ 10 →
      tokenize (joinWith ((tokenize selection).take 10)) =
        tokenize selection) := by
  have hsound :
      ∀ t ∈ (tokenize selection).take 10, t ≠ [] ∧ ∀ c ∈ t, isWs c = false :=
    fun t ht =>
      tokAux_sound selection [] (fun x hx => absurd hx (List.not_mem_nil x)) t
        (List.mem_of_mem_take ht)
  have hrt :
      tokenize (joinWith ((tokenize selection).take 10)) =
        (tokenize selection).take 10 :=
    tokenize_joinWith _ hsound
  refine ⟨?_, fun _ => hrt, fun hlen => ?_⟩
  · unfold handleTextSelection
    have hne : (trimChars selection).isEmpty = false := by
      rw [List.isEmpty_eq_false]
      exact h
    rw [hne]
    simp only [Bool.false_eq_true, if_false, tokenize_trimChars]
  · rw [hrt, List.take_of_length_le hlen]

/-- C4 witness: a concrete twelve-word selection is non-empty after trimming
and its emitted phrase is the single-space join of its first 10 tokens. -/
theorem selection_word_limit_witness :
    trimChars twelveWords ≠ [] ∧
      handleTextSelection twelveWords =
        some (joinWith ((tokenize twelveWords).take 10)) :=
  ⟨by decide, (selection_word_limit twelveWords (by decide)).1⟩

/-- C10 witness: a saved page 12 is clamped into a 5-page document, page 3 of
7 navigates within bounds, and zooming in at scale 3 stays within bounds. -/
theorem viewer_bounds_witness :
    (1 ≤ onLoadClampPage 12 5 ∧ onLoadClampPage 12 5 ≤ 5) ∧
    (1 ≤ goToNextPage 3 (some 7) ∧ goToNextPage 3 (some 7) ≤ 7) ∧
    (1 / 2 ≤ zoomIn 3 ∧ zoomIn 3 ≤ 3) :=
  ⟨viewer_bounds.1 12 5 (by norm_num),
   ⟨(viewer_bounds.2.1 3 7 (by norm_num) (by norm_num)).2.2.1,
    (viewer_bounds.2.1 3 7 (by norm_num) (by norm_num)).2.2.2⟩,
   ⟨(viewer_bounds.2.2 3 (by norm_num) (by norm_num)).1,
    (viewer_bounds.2.2 3 (by norm_num) (by norm_num)).2.1⟩⟩

end PdfTgTranslator
